import Mathlib

set_option linter.unusedVariables false

/-!
Verification of the Shoal build automation script (build.py).

The script is a sequential build-and-validation orchestrator.  We embed its
core components shallowly:

* `run_command` (build.py lines 116-138): runs one external command and
  returns a (returncode, stdout, stderr) triple; a missing executable is
  converted into an ordinary result with exit code 1.  The outcome of the
  spawned process is a parameter (`ExecOutcome`), and the printed diagnostic
  lines are returned explicitly so that the effect of the `check` flag is
  visible in the model.
* the validation pipeline of `validate` (lines 393-420): a fail-fast loop
  over named steps whose actions either return a boolean or raise.
* `build_for_platform` / `build_all_platforms` (lines 53-85): the
  cross-compilation matrix.
* `generate_build_info` (lines 339-376): best-effort metadata probes.
* `clean` (lines 161-193): build-artifact removal, modelled on an abstract
  filesystem state.
-/

/-- Result of one spawned subprocess, as seen by `run_command`:
either the process ran to completion with an exit code and captured output,
or the executable was not found (Python raises `FileNotFoundError`). -/
inductive ExecOutcome
  | completed (returncode : Int) (stdout : String) (stderr : String)
  | notFound
deriving DecidableEq

/-- The (returncode, stdout, stderr) triple returned by `run_command`
(build.py line 117). -/
structure CommandResult where
  returncode : Int
  stdout : String
  stderr : String
deriving DecidableEq

/-- Embedding of `BuildRunner.run_command` (build.py lines 116-138).
Returns the `CommandResult` together with the list of diagnostic lines the
function prints.  On a completed process the triple is returned unchanged;
diagnostics are printed only when `check` is true and the exit code is
nonzero (lines 127-132).  On `FileNotFoundError` the function prints an
error and returns `(1, "", "Command not found: <cmd[0]>")` (lines 136-138). -/
def run_command (cmd : List String) (outcome : ExecOutcome) (check : Bool) :
    CommandResult × List String :=
  match outcome with
  | ExecOutcome.completed rc out err =>
      let printed :=
        if check ∧ rc ≠ 0 then
          ["Command failed: " ++ String.intercalate " " cmd]
            ++ (if out ≠ "" then ["STDOUT:\n" ++ out] else [])
            ++ (if err ≠ "" then ["STDERR:\n" ++ err] else [])
        else []
      (⟨rc, out, err⟩, printed)
  | ExecOutcome.notFound =>
      (⟨1, "", "Command not found: " ++ cmd.headD ""⟩,
       ["Command not found: " ++ cmd.headD ""])

/-- What a pipeline step's action does when invoked: return a boolean, or
raise an exception carrying a message. -/
inductive ActionResult
  | ret (b : Bool)
  | exc (msg : String)
deriving DecidableEq

/-- One named pipeline step: the `(step_name, step_func)` pairs of
build.py lines 397-405. -/
structure Step where
  name : String
  action : ActionResult
deriving DecidableEq

/-- Outcome of a pipeline run: overall success, the name of the failed step
if any (reported via `print_error` at build.py lines 410 and 413), and the
exception message captured when the step raised (line 413). -/
structure PipelineOutcome where
  success : Bool
  failedStep : Option String
  errMsg : Option String
deriving DecidableEq

/-- The fail-fast step loop of `BuildRunner.validate` (build.py lines
407-414), instrumented with the number of step actions actually invoked.
A step returning `False` or raising stops the loop at once with a failure
verdict naming that step; otherwise iteration continues. -/
def runSequence : List Step → PipelineOutcome × Nat
  | [] => (⟨true, none, none⟩, 0)
  | s :: rest =>
    match s.action with
    | ActionResult.ret true =>
        let r := runSequence rest
        (r.1, r.2 + 1)
    | ActionResult.ret false => (⟨false, some s.name, none⟩, 1)
    | ActionResult.exc m => (⟨false, some s.name, some m⟩, 1)

theorem runSequence_nil : runSequence [] = (⟨true, none, none⟩, 0) := rfl

theorem runSequence_cons_true (s : Step) (rest : List Step)
    (h : s.action = ActionResult.ret true) :
    runSequence (s :: rest) = ((runSequence rest).1, (runSequence rest).2 + 1) := by
  simp [runSequence, h]

theorem runSequence_cons_false (s : Step) (rest : List Step)
    (h : s.action = ActionResult.ret false) :
    runSequence (s :: rest) = (⟨false, some s.name, none⟩, 1) := by
  simp [runSequence, h]

theorem runSequence_cons_exc (s : Step) (rest : List Step) (m : String)
    (h : s.action = ActionResult.exc m) :
    runSequence (s :: rest) = (⟨false, some s.name, some m⟩, 1) := by
  simp [runSequence, h]

theorem runSequence_all_true (steps : List Step)
    (h : ∀ s ∈ steps, s.action = ActionResult.ret true) :
    runSequence steps = (⟨true, none, none⟩, steps.length) := by
  induction steps with
  | nil => rfl
  | cons s rest ih =>
      have hs : s.action = ActionResult.ret true := h s (List.mem_cons_self s rest)
      have hrest : ∀ t ∈ rest, t.action = ActionResult.ret true :=
        fun t ht => h t (List.mem_cons_of_mem s ht)
      rw [runSequence_cons_true s rest hs, ih hrest]
      simp

/-- The exception message captured when an action fails: none for a boolean
return, the raised message for an exception. -/
def capturedMsg : ActionResult → Option String
  | ActionResult.ret _ => none
  | ActionResult.exc m => some m

theorem runSequence_first_fail (steps : List Step) (k : Nat) (hk : k < steps.length)
    (hprev : ∀ j (hj : j < steps.length), j < k →
      (steps.get ⟨j, hj⟩).action = ActionResult.ret true)
    (r : ActionResult) (hr : (steps.get ⟨k, hk⟩).action = r)
    (hnt : r ≠ ActionResult.ret true) :
    (runSequence steps).1.success = false ∧
    (runSequence steps).1.failedStep = some (steps.get ⟨k, hk⟩).name ∧
    (runSequence steps).1.errMsg = capturedMsg r ∧
    (runSequence steps).2 = k + 1 := by
  induction steps generalizing k with
  | nil => exact absurd hk (Nat.not_lt_zero k)
  | cons s rest ih =>
      cases k with
      | zero =>
          have hs : s.action = r := hr
          match r, hnt with
          | ActionResult.ret true, hnt => exact absurd rfl hnt
          | ActionResult.ret false, _ =>
              rw [runSequence_cons_false s rest hs]
              simp [List.get, capturedMsg]
          | ActionResult.exc m, _ =>
              rw [runSequence_cons_exc s rest m hs]
              simp [List.get, capturedMsg]
      | succ k' =>
          have hs : s.action = ActionResult.ret true :=
            hprev 0 (Nat.zero_lt_succ _) (Nat.zero_lt_succ _)
          have hk' : k' < rest.length := Nat.lt_of_succ_lt_succ hk
          have hprev' : ∀ j (hj : j < rest.length), j < k' →
              (rest.get ⟨j, hj⟩).action = ActionResult.ret true := by
            intro j hj hjk
            exact hprev (j + 1) (Nat.succ_lt_succ hj) (Nat.succ_lt_succ hjk)
          have hr' : (rest.get ⟨k', hk'⟩).action = r := hr
          have := ih k' hk' hprev' hr'
          rw [runSequence_cons_true s rest hs]
          simpa using this

/-- Claim C1: for every step sequence, if all actions before position k
return true and the action at position k returns false, the pipeline
reports failure naming the step at position k and invokes exactly the first
k+1 step actions, so no step after position k runs; and if every action
returns true, the pipeline reports success with no failed step. -/
theorem pipeline_fail_fast (steps : List Step) (k : Nat) (hk : k < steps.length)
    (hprev : ∀ j (hj : j < steps.length), j < k →
      (steps.get ⟨j, hj⟩).action = ActionResult.ret true)
    (hfail : (steps.get ⟨k, hk⟩).action = ActionResult.ret false) :
    (runSequence steps).1.success = false ∧
    (runSequence steps).1.failedStep = some (steps.get ⟨k, hk⟩).name ∧
    (runSequence steps).2 = k + 1 ∧
    (∀ steps2 : List Step, (∀ s ∈ steps2, s.action = ActionResult.ret true) →
      runSequence steps2 = (⟨true, none, none⟩, steps2.length)) := by
  have h := runSequence_first_fail steps k hk hprev (ActionResult.ret false) hfail
    (by intro hcon; exact Bool.noConfusion (ActionResult.ret.inj hcon))
  exact ⟨h.1, h.2.1, h.2.2.2, runSequence_all_true⟩

/-- Steps used to exercise `pipeline_fail_fast` on a concrete input. -/
def demoStepsC1 : List Step :=
  [⟨"Prerequisites", ActionResult.ret true⟩,
   ⟨"Lint", ActionResult.ret false⟩,
   ⟨"Tests", ActionResult.ret true⟩]

/-- Witness for `pipeline_fail_fast` at the concrete sequence
[ok, fail, ok] with k = 1. -/
theorem pipeline_fail_fast_witness :
    (1 < demoStepsC1.length) ∧
    ((runSequence demoStepsC1).1.success = false ∧
     (runSequence demoStepsC1).1.failedStep =
       some (demoStepsC1.get ⟨1, by decide⟩).name ∧
     (runSequence demoStepsC1).2 = 1 + 1 ∧
     (∀ steps2 : List Step, (∀ s ∈ steps2, s.action = ActionResult.ret true) →
       runSequence steps2 = (⟨true, none, none⟩, steps2.length))) :=
  ⟨by decide,
   pipeline_fail_fast demoStepsC1 1 (by decide)
     (by
       intro j hj hjk
       have hj0 : j = 0 := by omega
       subst hj0
       rfl)
     rfl⟩

/-- Claim C4: an action that raises is treated as a failure of exactly that
step, with the exception message captured in the failure report, the loop
stopping there; and the pipeline is total, always yielding exactly one of
overall success with no failed step, or failure with a first failed step
named. -/
theorem pipeline_exception_contained (steps : List Step) (k : Nat)
    (hk : k < steps.length)
    (hprev : ∀ j (hj : j < steps.length), j < k →
      (steps.get ⟨j, hj⟩).action = ActionResult.ret true)
    (m : String) (hexc : (steps.get ⟨k, hk⟩).action = ActionResult.exc m) :
    (runSequence steps).1.success = false ∧
    (runSequence steps).1.failedStep = some (steps.get ⟨k, hk⟩).name ∧
    (runSequence steps).1.errMsg = some m ∧
    (runSequence steps).2 = k + 1 ∧
    (∀ steps2 : List Step,
      ((runSequence steps2).1.success = true ∧
        (runSequence steps2).1.failedStep = none) ∨
      ((runSequence steps2).1.success = false ∧
        (runSequence steps2).1.failedStep ≠ none)) := by
  have h := runSequence_first_fail steps k hk hprev (ActionResult.exc m) hexc
    (by intro hcon; exact ActionResult.noConfusion hcon)
  refine ⟨h.1, h.2.1, h.2.2.1, h.2.2.2, ?_⟩
  intro steps2
  induction steps2 with
  | nil => left; exact ⟨rfl, rfl⟩
  | cons s rest ih =>
      rcases hact : s.action with b | msg
      · cases b with
        | true =>
            rw [runSequence_cons_true s rest hact]
            simpa using ih
        | false =>
            rw [runSequence_cons_false s rest hact]
            right
            exact ⟨rfl, by simp⟩
      · rw [runSequence_cons_exc s rest msg hact]
        right
        exact ⟨rfl, by simp⟩

/-- Steps used to exercise `pipeline_exception_contained` concretely. -/
def demoStepsC4 : List Step :=
  [⟨"Prerequisites", ActionResult.ret true⟩,
   ⟨"Tests", ActionResult.exc "boom"⟩,
   ⟨"Build", ActionResult.ret true⟩]

/-- Witness for `pipeline_exception_contained` at the concrete sequence
[ok, raise "boom", ok] with k = 1. -/
theorem pipeline_exception_contained_witness :
    (1 < demoStepsC4.length) ∧
    ((runSequence demoStepsC4).1.success = false ∧
     (runSequence demoStepsC4).1.failedStep =
       some (demoStepsC4.get ⟨1, by decide⟩).name ∧
     (runSequence demoStepsC4).1.errMsg = some "boom" ∧
     (runSequence demoStepsC4).2 = 1 + 1 ∧
     (∀ steps2 : List Step,
       ((runSequence steps2).1.success = true ∧
         (runSequence steps2).1.failedStep = none) ∨
       ((runSequence steps2).1.success = false ∧
         (runSequence steps2).1.failedStep ≠ none))) :=
  ⟨by decide,
   pipeline_exception_contained demoStepsC4 1 (by decide)
     (by
       intro j hj hjk
       have hj0 : j = 0 := by omega
       subst hj0
       rfl)
     "boom" rfl⟩

/-- A Python dict of environment variables (or a directory of files keyed by
path), as an association list. -/
abbrev EnvMap : Type := List (String × String)

/-- Python dict assignment `d[k] = v`: replace the value at an existing key,
otherwise append the new binding. -/
def setVar (env : EnvMap) (k v : String) : EnvMap :=
  if env.any (fun kv => kv.1 == k) then
    env.map (fun kv => if kv.1 == k then (k, v) else kv)
  else
    env ++ [(k, v)]

/-- Python dict lookup `d.get(k)`. -/
def lookupVar (env : EnvMap) (k : String) : Option String :=
  (env.find? (fun kv => kv.1 == k)).map (fun kv => kv.2)

theorem setVar_pos (env : EnvMap) (k v : String)
    (h : env.any (fun kv => kv.1 == k) = true) :
    setVar env k v = env.map (fun kv => if kv.1 == k then (k, v) else kv) := by
  unfold setVar
  rw [if_pos h]

theorem setVar_neg (env : EnvMap) (k v : String)
    (h : ¬ env.any (fun kv => kv.1 == k) = true) :
    setVar env k v = env ++ [(k, v)] := by
  unfold setVar
  rw [if_neg h]

theorem setVar_setVar (env : EnvMap) (k v₁ v₂ : String) :
    setVar (setVar env k v₁) k v₂ = setVar env k v₂ := by
  by_cases h : env.any (fun kv => kv.1 == k) = true
  · have h2 : (env.map (fun kv => if kv.1 == k then (k, v₁) else kv)).any
        (fun kv => kv.1 == k) = true := by
      rw [List.any_eq_true] at h ⊢
      obtain ⟨kv, hmem, hk⟩ := h
      exact ⟨(k, v₁), List.mem_map.2 ⟨kv, hmem, by simp [hk]⟩, by simp⟩
    rw [setVar_pos env k v₁ h, setVar_pos _ k v₂ h2, setVar_pos env k v₂ h,
      List.map_map]
    apply List.map_congr_left
    intro kv hkv
    by_cases hk : (kv.1 == k) = true
    · simp [Function.comp, hk]
    · simp [Function.comp, hk]
  · have h2 : (env ++ [(k, v₁)]).any (fun kv => kv.1 == k) = true := by
      simp [List.any_append]
    rw [setVar_neg env k v₁ h, setVar_pos _ k v₂ h2, setVar_neg env k v₂ h,
      List.map_append]
    have hid : env.map (fun kv => if kv.1 == k then (k, v₂) else kv)
        = env.map id := by
      apply List.map_congr_left
      intro kv hkv
      have hk : (kv.1 == k) = false := by
        by_contra hcon
        exact h (List.any_eq_true.2 ⟨kv, hkv, by simpa using hcon⟩)
      simp [hk]
    rw [hid, List.map_id]
    simp

/-- Extension of `.exe` appended to the per-platform binary name
(build.py line 57). -/
def binaryExt (goos : String) : String :=
  if goos = "windows" then ".exe" else ""

/-- The per-platform artifact filename, build.py line 58:
`shoal-{goos}-{goarch}{ext}`. -/
def binary_name (goos goarch : String) : String :=
  "shoal-" ++ goos ++ "-" ++ goarch ++ binaryExt goos

/-- The local variable `env` computed inside `build_for_platform`
(build.py lines 60-62): a copy of the ambient process environment with
GOOS and GOARCH assigned on top. -/
def build_for_platform_env (environ : EnvMap) (goos goarch : String) : EnvMap :=
  setVar (setVar environ "GOOS" goos) "GOARCH" goarch

/-- The environment a subprocess spawned by `run_command` receives:
`subprocess.run` is invoked with cmd, cwd, capture_output, text and check
only (build.py lines 119-125), with no env argument, so the child inherits
the ambient process environment unchanged. -/
def run_command_subprocess_env (environ : EnvMap) : EnvMap := environ

/-- What `build_for_platform` (build.py lines 53-76) passes to the compiler
subprocess: the argument list of line 63-69 and the environment of the
`run_command` call on line 70, which is made without the local `env` dict,
so the subprocess environment is the inherited one. -/
structure BuildInvocation where
  cmd : List String
  env : EnvMap

/-- The compiler invocation performed by `build_for_platform` for a target.
The command is the `go build` argument list of build.py lines 63-69; the
environment is what the `run_command` call on line 70 gives the subprocess,
namely the inherited `environ` (the locally computed `env` of lines 60-62 is
never passed to `run_command`). -/
def build_for_platform_invocation (environ : EnvMap) (goos goarch : String) :
    BuildInvocation :=
  { cmd := ["go", "build",
            "-ldflags", "-s -w -extldflags=-static",
            "-tags", "netgo,osusergo",
            "-o", "build/" ++ binary_name goos goarch,
            "./cmd/shoal"],
    env := run_command_subprocess_env environ }

/-- Claim C2 evaluated on the code: for the concrete ambient environment
{PATH: /usr/bin} and target windows/arm64, the merged override dict that
`build_for_platform` computes does carry GOOS=windows, GOARCH=arm64 on top
of PATH, but the environment actually given to the compiler subprocess is
the unmodified ambient environment, with no GOOS or GOARCH binding at all:
the computed dict is never passed to `run_command`. -/
theorem build_for_platform_env_not_passed :
    (build_for_platform_invocation [("PATH", "/usr/bin")] "windows" "arm64").env
      = [("PATH", "/usr/bin")] ∧
    lookupVar (build_for_platform_invocation [("PATH", "/usr/bin")]
      "windows" "arm64").env "GOOS" = none ∧
    lookupVar (build_for_platform_invocation [("PATH", "/usr/bin")]
      "windows" "arm64").env "GOARCH" = none ∧
    lookupVar (build_for_platform_env [("PATH", "/usr/bin")] "windows" "arm64")
      "GOOS" = some "windows" ∧
    lookupVar (build_for_platform_env [("PATH", "/usr/bin")] "windows" "arm64")
      "GOARCH" = some "arm64" ∧
    lookupVar (build_for_platform_env [("PATH", "/usr/bin")] "windows" "arm64")
      "PATH" = some "/usr/bin" := by
  decide

/-- Writing the artifact file at a path: the filesystem is a map from paths
to contents, and `go build -o path` replaces whatever was at that path. -/
def writeArtifact (fs : EnvMap) (path content : String) : EnvMap :=
  setVar fs path content

/-- Claim C8: the artifact filename for a target is the product name, the
OS and the architecture joined by hyphens, with ".exe" appended exactly
when the OS is "windows"; the path is a pure function of the target, and
writing the artifact for the same target twice leaves the filesystem as if
only the second write had happened, so re-running overwrites rather than
accumulating duplicates. -/
theorem artifact_name_deterministic (goos goarch : String) :
    binary_name goos goarch =
      String.intercalate "-" ["shoal", goos, goarch] ++
        (if goos = "windows" then ".exe" else "") ∧
    (goos = "windows" →
      binary_name goos goarch = "shoal-" ++ goos ++ "-" ++ goarch ++ ".exe") ∧
    (goos ≠ "windows" →
      binary_name goos goarch = "shoal-" ++ goos ++ "-" ++ goarch) ∧
    (∀ fs c₁ c₂ : String, ∀ m : EnvMap,
      writeArtifact (writeArtifact m (binary_name goos goarch) c₁)
        (binary_name goos goarch) c₂
        = writeArtifact m (binary_name goos goarch) c₂) := by
  refine ⟨?_, ?_, ?_, ?_⟩
  · show binary_name goos goarch =
      String.intercalate "-" ["shoal", goos, goarch] ++
        (if goos = "windows" then ".exe" else "")
    rw [show String.intercalate "-" ["shoal", goos, goarch]
        = "shoal-" ++ goos ++ "-" ++ goarch from ?_]
    · rfl
    · simp [String.intercalate, List.intercalate]
      rfl
  · intro h
    simp [binary_name, binaryExt, h]
  · intro h
    simp [binary_name, binaryExt, h]
  · intro fs c₁ c₂ m
    exact setVar_setVar m (binary_name goos goarch) c₁ c₂

/-- Witness for `artifact_name_deterministic` at the windows/amd64 and
linux/arm64 targets, checking both naming branches concretely. -/
theorem artifact_name_deterministic_witness :
    binary_name "windows" "amd64" = "shoal-windows-amd64.exe" ∧
    binary_name "linux" "arm64" = "shoal-linux-arm64" ∧
    writeArtifact (writeArtifact [] "shoal-linux-arm64" "a")
      "shoal-linux-arm64" "b" = writeArtifact [] "shoal-linux-arm64" "b" :=
  ⟨by
     have h := (artifact_name_deterministic "windows" "amd64").2.1 rfl
     simpa using h,
   by
     have h := (artifact_name_deterministic "linux" "arm64").2.2.1 (by decide)
     simpa using h,
   (artifact_name_deterministic "linux" "arm64").2.2.2 "" "a" "b" []⟩

/-- The declared cross-compilation matrix, build.py lines 45-51. -/
def SUPPORTED_PLATFORMS : List (String × String) :=
  [("linux", "amd64"),
   ("windows", "amd64"),
   ("darwin", "amd64"),
   ("linux", "arm64"),
   ("darwin", "arm64")]

/-- The loop body of `build_all_platforms` (build.py lines 81-85):
for each (goos, goarch) the single-platform build is invoked and its
boolean result is and-ed into the aggregate.  `outcome` gives the result of
`build_for_platform` for each target; the second component records, in
order, every target for which `build_for_platform` was invoked. -/
def build_all_platforms_loop (outcome : String → String → Bool) :
    List (String × String) → Bool → Bool × List (String × String)
  | [], all_ok => (all_ok, [])
  | t :: rest, all_ok =>
      let ok := outcome t.1 t.2
      let r := build_all_platforms_loop outcome rest (all_ok && ok)
      (r.1, t :: r.2)

/-- Embedding of `BuildRunner.build_all_platforms` (build.py lines 78-85):
fold the loop over the declared platform list starting from `all_ok = True`.
The function returns only the aggregate boolean; the attempt trace is the
instrumentation of which targets were attempted. -/
def build_all_platforms (outcome : String → String → Bool) :
    Bool × List (String × String) :=
  build_all_platforms_loop outcome SUPPORTED_PLATFORMS true

theorem build_all_platforms_loop_trace (outcome : String → String → Bool)
    (ts : List (String × String)) (acc : Bool) :
    (build_all_platforms_loop outcome ts acc).2 = ts := by
  induction ts generalizing acc with
  | nil => rfl
  | cons t rest ih =>
      simp [build_all_platforms_loop, ih]

theorem build_all_platforms_loop_agg (outcome : String → String → Bool)
    (ts : List (String × String)) (acc : Bool) :
    (build_all_platforms_loop outcome ts acc).1
      = (acc && ts.all (fun t => outcome t.1 t.2)) := by
  induction ts generalizing acc with
  | nil => simp [build_all_platforms_loop]
  | cons t rest ih =>
      simp [build_all_platforms_loop, ih, List.all_cons, Bool.and_assoc]

/-- Claim C3 (amended): the matrix build attempts the single-platform build
exactly once per declared target, in declaration order, regardless of which
targets fail (no fail-fast), and its aggregate result is true exactly when
every declared target's build succeeded. -/
theorem build_all_platforms_attempts_all (outcome : String → String → Bool) :
    (build_all_platforms outcome).2 = SUPPORTED_PLATFORMS ∧
    ((build_all_platforms outcome).1 = true ↔
      ∀ t ∈ SUPPORTED_PLATFORMS, outcome t.1 t.2 = true) := by
  constructor
  · exact build_all_platforms_loop_trace outcome SUPPORTED_PLATFORMS true
  · rw [show (build_all_platforms outcome).1
        = (true && SUPPORTED_PLATFORMS.all (fun t => outcome t.1 t.2)) from
      build_all_platforms_loop_agg outcome SUPPORTED_PLATFORMS true]
    simp [List.all_eq_true]

/-- Witness for `build_all_platforms_attempts_all` at the all-successful
outcome function: every declared target is attempted in order and the
aggregate is success. -/
theorem build_all_platforms_attempts_all_witness :
    (build_all_platforms (fun goos goarch => true)).2 = SUPPORTED_PLATFORMS ∧
    (build_all_platforms (fun goos goarch => true)).1 = true :=
  ⟨(build_all_platforms_attempts_all (fun goos goarch => true)).1,
   (build_all_platforms_attempts_all (fun goos goarch => true)).2.mpr
     (fun t ht => rfl)⟩

/-- Outcome function failing exactly on the windows/amd64 target. -/
def outcomeFailWindows (goos goarch : String) : Bool :=
  !(goos == "windows")

/-- Outcome function failing exactly on the linux/amd64 target. -/
def outcomeFailLinuxAmd (goos goarch : String) : Bool :=
  !(goos == "linux" && goarch == "amd64")

/-- Modelled from the spec: the per-target results map the
PlatformMatrixBuilder contract promises, `buildAll(targets) ->
{results: mapping PlatformTarget -> boolean success}`, with an entry for
every declared target. -/
def buildAll_results_spec (outcome : String → String → Bool) :
    List ((String × String) × Bool) :=
  SUPPORTED_PLATFORMS.map (fun t => (t, outcome t.1 t.2))

/-- Counterexample to claim C3 as stated: two concrete runs whose
per-target results differ (one fails only on windows/amd64, the other only
on linux/amd64) leave `build_all_platforms` with identical output —
aggregate false and the same attempt trace — so no per-target results map
showing an entry for every target is available to the caller; the code
returns only the aggregate boolean. -/
theorem build_all_platforms_no_results_map :
    build_all_platforms outcomeFailWindows
      = build_all_platforms outcomeFailLinuxAmd ∧
    buildAll_results_spec outcomeFailWindows
      ≠ buildAll_results_spec outcomeFailLinuxAmd := by
  constructor
  · decide
  · decide

/-- Claim C5: when the executable of a non-empty command cannot be found,
`run_command` returns (instead of raising) a result with exit code 1, empty
stdout, and a stderr message naming the missing command; the result is the
very value an ordinary completed invocation with that code and output would
produce, so the two cases are indistinguishable at the type level. -/
theorem run_command_not_found (c : String) (args : List String) (check : Bool) :
    (run_command (c :: args) ExecOutcome.notFound check).1
      = ⟨1, "", "Command not found: " ++ c⟩ ∧
    (run_command (c :: args) ExecOutcome.notFound check).1
      = (run_command (c :: args)
          (ExecOutcome.completed 1 "" ("Command not found: " ++ c)) check).1 := by
  exact ⟨rfl, rfl⟩

/-- Claim C10: the (returncode, stdout, stderr) triple returned by
`run_command` is the same whether check is true or false, for every command
and every subprocess outcome (zero exit, nonzero exit, or executable not
found); the flag affects only the printed diagnostic lines. -/
theorem run_command_check_independent (cmd : List String) (o : ExecOutcome) :
    (run_command cmd o true).1 = (run_command cmd o false).1 := by
  cases o <;> rfl

/-- The build metadata record assembled by `generate_build_info`
(build.py lines 362-370). -/
structure BuildInfo where
  timestamp : String
  go_version : String
  git_commit : String
  git_branch : String
  git_dirty : Bool
  hostPlatform : String
  architecture : String
deriving DecidableEq

/-- The ambient inputs of `generate_build_info`: the outcomes of its four
probe subprocesses (three git probes and the go version probe, build.py
lines 346-360) and the host clock and platform values (lines 363, 368-369). -/
structure Probes where
  gitRevParse : ExecOutcome
  gitBranch : ExecOutcome
  gitStatus : ExecOutcome
  goVersion : ExecOutcome
  timestamp : String
  hostSystem : String
  hostMachine : String

/-- Embedding of `BuildRunner.generate_build_info` (build.py lines 339-376).
Each probe starts from a placeholder ("unknown" commit and branch, clean
tree) and is upgraded only when the corresponding `run_command` call, made
with check=False, reports exit code 0: commit is the stripped stdout cut to
8 characters, branch the stripped stdout, dirtiness the non-emptiness of
the stripped status output, and the toolchain version the stripped stdout
of the version probe. -/
def generate_build_info (p : Probes) : BuildInfo :=
  let r1 := (run_command ["git", "rev-parse", "HEAD"] p.gitRevParse false).1
  let git_commit := if r1.returncode = 0 then r1.stdout.trim.take 8 else "unknown"
  let r2 := (run_command ["git", "branch", "--show-current"] p.gitBranch false).1
  let git_branch := if r2.returncode = 0 then r2.stdout.trim else "unknown"
  let r3 := (run_command ["git", "status", "--porcelain"] p.gitStatus false).1
  let git_dirty := if r3.returncode = 0 then !(r3.stdout.trim == "") else false
  let r4 := (run_command ["go", "version"] p.goVersion false).1
  let go_version := if r4.returncode = 0 then r4.stdout.trim else "unknown"
  { timestamp := p.timestamp,
    go_version := go_version,
    git_commit := git_commit,
    git_branch := git_branch,
    git_dirty := git_dirty,
    hostPlatform := p.hostSystem,
    architecture := p.hostMachine }

/-- The validation pipeline of `BuildRunner.validate` (build.py lines
393-420) together with its build-info generation: the fail-fast step loop,
and, only when the loop finishes with every step succeeding,
`generate_build_info` is called and its record returned; on any step
failure or exception the function returns False with no record. -/
def validate (p : Probes) : List Step → Bool × Option BuildInfo
  | [] => (true, some (generate_build_info p))
  | s :: rest =>
    match s.action with
    | ActionResult.ret true => validate p rest
    | ActionResult.ret false => (false, none)
    | ActionResult.exc _ => (false, none)

/-- Claim C7: a BuildInfo record is produced exactly when every step of the
validation pipeline succeeded — on any run where some step returns false or
raises, no record is generated — and the record is generated precisely on
the runs that report overall success. -/
theorem validate_buildinfo_only_on_success (p : Probes) (steps : List Step) :
    ((validate p steps).2.isSome = true ↔
      ∀ s ∈ steps, s.action = ActionResult.ret true) ∧
    (validate p steps).2.isSome = (validate p steps).1 := by
  induction steps with
  | nil => simp [validate]
  | cons s rest ih =>
      rcases hact : s.action with b | msg
      · cases b with
        | true =>
            constructor
            · rw [show validate p (s :: rest) = validate p rest from by
                simp [validate, hact]]
              rw [ih.1]
              constructor
              · intro h t ht
                rcases List.mem_cons.1 ht with h1 | h2
                · rw [h1]; exact hact
                · exact h t h2
              · intro h t ht
                exact h t (List.mem_cons_of_mem s ht)
            · rw [show validate p (s :: rest) = validate p rest from by
                simp [validate, hact]]
              exact ih.2
        | false =>
            constructor
            · rw [show validate p (s :: rest) = (false, none) from by
                simp [validate, hact]]
              simp
              intro hcon
              rw [hact] at hcon
              exact absurd hcon (by simp)
            · rw [show validate p (s :: rest) = (false, none) from by
                simp [validate, hact]]
              simp
      · constructor
        · rw [show validate p (s :: rest) = (false, none) from by
            simp [validate, hact]]
          simp
          intro hcon
          rw [hact] at hcon
          exact absurd hcon (by simp)
        · rw [show validate p (s :: rest) = (false, none) from by
            simp [validate, hact]]
          simp

/-- Probe pack in which every probe command is missing, as on a host without
git or a toolchain. -/
def probesNoGit : Probes :=
  { gitRevParse := ExecOutcome.notFound,
    gitBranch := ExecOutcome.notFound,
    gitStatus := ExecOutcome.notFound,
    goVersion := ExecOutcome.notFound,
    timestamp := "2026-01-01 00:00:00 UTC",
    hostSystem := "Linux",
    hostMachine := "x86_64" }

/-- Witness for `validate_buildinfo_only_on_success`: on a concrete
all-successful step list a record is produced, and on a concrete list with
a failing step none is. -/
theorem validate_buildinfo_only_on_success_witness :
    (validate probesNoGit
      [⟨"Prerequisites", ActionResult.ret true⟩,
       ⟨"Build", ActionResult.ret true⟩]).2.isSome = true ∧
    (validate probesNoGit
      [⟨"Prerequisites", ActionResult.ret true⟩,
       ⟨"Build", ActionResult.ret false⟩]).2.isSome = false :=
  ⟨(validate_buildinfo_only_on_success probesNoGit
      [⟨"Prerequisites", ActionResult.ret true⟩,
       ⟨"Build", ActionResult.ret true⟩]).1.mpr
    (by
      intro s hs
      rcases List.mem_cons.1 hs with h1 | h2
      · rw [h1]
      · rcases List.mem_cons.1 h2 with h3 | h4
        · rw [h3]
        · exact absurd h4 (List.not_mem_nil s)),
   by
     have h := (validate_buildinfo_only_on_success probesNoGit
       [⟨"Prerequisites", ActionResult.ret true⟩,
        ⟨"Build", ActionResult.ret false⟩]).1
     cases hx : (validate probesNoGit
       [⟨"Prerequisites", ActionResult.ret true⟩,
        ⟨"Build", ActionResult.ret false⟩]).2.isSome with
     | false => rfl
     | true =>
         have hall := h.mp hx
         have hb := hall ⟨"Build", ActionResult.ret false⟩ (by simp)
         exact absurd hb (by simp)⟩

theorem validate_fst_probe_independent (q q2 : Probes) (steps : List Step) :
    (validate q steps).1 = (validate q2 steps).1 := by
  induction steps with
  | nil => rfl
  | cons s rest ih =>
      rcases hact : s.action with b | m
      · cases b with
        | true => simpa [validate, hact] using ih
        | false => simp [validate, hact]
      · simp [validate, hact]

/-- Claim C6: every metadata sub-probe degrades to a placeholder on failure
and never raises — when the three version-control probes report nonzero
exit codes the record keeps commit "unknown", branch "unknown" and a clean
dirty flag; when the toolchain version probe fails the version string is
"unknown"; and the pipeline's overall verdict does not depend on the probe
outcomes at all, so a probe failure never turns it into a failure. -/
theorem build_info_probes_degrade (p : Probes)
    (h1 : (run_command ["git", "rev-parse", "HEAD"] p.gitRevParse false).1.returncode
      ≠ 0)
    (h2 : (run_command ["git", "branch", "--show-current"] p.gitBranch false).1.returncode
      ≠ 0)
    (h3 : (run_command ["git", "status", "--porcelain"] p.gitStatus false).1.returncode
      ≠ 0) :
    (generate_build_info p).git_commit = "unknown" ∧
    (generate_build_info p).git_branch = "unknown" ∧
    (generate_build_info p).git_dirty = false ∧
    (∀ q : Probes,
      (run_command ["go", "version"] q.goVersion false).1.returncode ≠ 0 →
      (generate_build_info q).go_version = "unknown") ∧
    (∀ q q2 : Probes, ∀ steps : List Step,
      (validate q steps).1 = (validate q2 steps).1) := by
  refine ⟨?_, ?_, ?_, ?_, ?_⟩
  · simp [generate_build_info, h1]
  · simp [generate_build_info, h2]
  · simp [generate_build_info, h3]
  · intro q hq
    simp [generate_build_info, hq]
  · intro q q2 steps
    exact validate_fst_probe_independent q q2 steps

/-- Witness for `build_info_probes_degrade` at the probe pack in which every
probe executable is missing (exit code 1 via the not-found path of
`run_command`). -/
theorem build_info_probes_degrade_witness :
    ((run_command ["git", "rev-parse", "HEAD"] probesNoGit.gitRevParse
        false).1.returncode ≠ 0) ∧
    ((run_command ["git", "branch", "--show-current"] probesNoGit.gitBranch
        false).1.returncode ≠ 0) ∧
    ((run_command ["git", "status", "--porcelain"] probesNoGit.gitStatus
        false).1.returncode ≠ 0) ∧
    ((generate_build_info probesNoGit).git_commit = "unknown" ∧
     (generate_build_info probesNoGit).git_branch = "unknown" ∧
     (generate_build_info probesNoGit).git_dirty = false ∧
     (∀ q : Probes,
       (run_command ["go", "version"] q.goVersion false).1.returncode ≠ 0 →
       (generate_build_info q).go_version = "unknown") ∧
     (∀ q q2 : Probes, ∀ steps : List Step,
       (validate q steps).1 = (validate q2 steps).1)) :=
  ⟨by decide, by decide, by decide,
   build_info_probes_degrade probesNoGit (by decide) (by decide) (by decide)⟩

/-- Abstract filesystem state seen by `clean`: whether the build directory
exists, whether the default binary exists at the project root, and the
files under the project tree (by name). -/
structure FsState where
  buildDirExists : Bool
  rootBinaryExists : Bool
  files : List String
deriving DecidableEq

/-- Whether a filename matches one of the test-artifact glob patterns of
build.py lines 177-185: the three fixed coverage filenames, or the
*.test / *.db / *.sqlite / *.sqlite3 suffix patterns. -/
def is_test_artifact (name : String) : Bool :=
  name == "coverage.out" || name == "coverage.html" || name == "coverage.txt"
    || name.endsWith ".test" || name.endsWith ".db"
    || name.endsWith ".sqlite" || name.endsWith ".sqlite3"

/-- Embedding of `BuildRunner.clean` (build.py lines 161-193): remove the
build directory if it exists, remove the root binary if it exists, delete
every file matching a test-artifact pattern, and return True
unconditionally. -/
def clean (s : FsState) : FsState × Bool :=
  let s1 := if s.buildDirExists then { s with buildDirExists := false } else s
  let s2 := if s1.rootBinaryExists then { s1 with rootBinaryExists := false }
            else s1
  let s3 := { s2 with files := s2.files.filter (fun f => ! (is_test_artifact f)) }
  (s3, true)

theorem clean_closed_form (s : FsState) :
    clean s = (⟨false, false,
      s.files.filter (fun f => ! (is_test_artifact f))⟩, true) := by
  rcases s with ⟨bd, rb, fl⟩
  cases bd <;> cases rb <;> simp [clean]

/-- Claim C9: `clean` is idempotent and tolerates an already-clean state:
for every filesystem state, a second invocation returns exactly the result
of the first (same resulting state, same verdict), the verdict is success
on every state, and in particular on the state with nothing to remove. -/
theorem clean_idempotent (s : FsState) :
    clean ((clean s).1) = clean s ∧
    (clean s).2 = true ∧
    clean ⟨false, false, []⟩ = (⟨false, false, []⟩, true) := by
  refine ⟨?_, ?_, ?_⟩
  · rw [clean_closed_form s, clean_closed_form]
    simp [List.filter_filter]
  · rw [clean_closed_form s]
  · rw [clean_closed_form]
    rfl
